import Mathlib

/-!
Verification development for the construction-mvp repository.

The repository ships a Vue frontend (`frontend`, `App.vue`) and an
architecture document (`construction-ai-langgraph/README.md`).  The
graph-based workflow engine described by the specification is not part of
the shipped sources, so the engine, its data model and the two pipelines
are modelled here from the specification text (each such definition is
marked `Modelled from the spec:`).  The frontend operations
(`submitRecord`, `executeQuery`, `fetchRecords`, `fetchStats`) are
embedded directly from `App.vue`.
-/

namespace ConstructionMvp

/-! ### Review status and extraction data (spec §3) -/

/-- Modelled from the spec: `reviewStatus ∈ {draft, pendingReview, approved,
rejected}` on an ExtractionState (spec §3); the engine sources are absent
from the repository. -/
inductive ReviewStatus where
  | draft
  | pendingReview
  | approved
  | rejected
deriving DecidableEq, Repr

/-- Rank of a review status in the pipeline order
`draft → pendingReview → {approved, rejected}` (spec §3: monotonic). -/
def ReviewStatus.rank : ReviewStatus → Nat
  | .draft => 0
  | .pendingReview => 1
  | .approved => 2
  | .rejected => 2

/-- A review status is terminal when it is `approved` or `rejected`. -/
def ReviewStatus.isTerminal : ReviewStatus → Bool
  | .approved => true
  | .rejected => true
  | _ => false

/-- Modelled from the spec: a candidate entity produced by the NER
capability (spec §6: `extractEntities(text) → candidateEntities[]`). -/
structure Entity where
  label : String
  value : String
deriving DecidableEq, Repr

/-- Modelled from the spec: the structured record payload (spec §3,
ConstructionRecord fields: project, date, activity type, quantity, unit,
location, workers, equipment, issues, source document reference). -/
structure RecordData where
  project : String := ""
  date : String := ""
  activityType : String := ""
  quantity : Nat := 0
  unit : String := ""
  location : String := ""
  workers : Nat := 0
  equipment : String := ""
  issues : String := ""
  sourceDoc : String := ""
deriving DecidableEq, Repr

/-- Modelled from the spec: `ExtractionState = {documentRef, ocrText,
ocrRegions[], candidateEntities[], refinedRecord, confidenceScores,
reviewStatus}` (spec §3). -/
structure ExtractionState where
  documentRef : String
  ocrText : Option String
  ocrRegions : List String
  candidateEntities : List Entity
  refinedRecord : Option RecordData
  confidenceScores : List Nat
  reviewStatus : ReviewStatus
deriving DecidableEq, Repr

/-- Modelled from the spec: a patch is a partial update of the run state
returned by a node (spec §4.1); a `some` field overrides the state field. -/
structure EPatch where
  ocrText : Option String := none
  ocrRegions : Option (List String) := none
  candidateEntities : Option (List Entity) := none
  refinedRecord : Option RecordData := none
  confidenceScores : Option (List Nat) := none
  reviewStatus : Option ReviewStatus := none
deriving DecidableEq, Repr

/-- The empty patch (contributed e.g. by skipped or failed node attempts). -/
def EPatch.empty : EPatch := {}

/-- Modelled from the spec: the engine applies a patch atomically between
node executions (spec §4.1); absent fields keep the snapshot value. -/
def applyEPatch (s : ExtractionState) (p : EPatch) : ExtractionState :=
  { documentRef := s.documentRef
    ocrText := match p.ocrText with | some t => some t | none => s.ocrText
    ocrRegions := p.ocrRegions.getD s.ocrRegions
    candidateEntities := p.candidateEntities.getD s.candidateEntities
    refinedRecord := match p.refinedRecord with | some r => some r | none => s.refinedRecord
    confidenceScores := p.confidenceScores.getD s.confidenceScores
    reviewStatus := p.reviewStatus.getD s.reviewStatus }

/-- Modelled from the spec: the committed structured entity, created only
from an approved ExtractionState, immutable thereafter (spec §3). -/
structure ConstructionRecord where
  runId : Nat
  data : RecordData
deriving DecidableEq, Repr

/-- Modelled from the spec: `ReviewTask = {runId, payload, createdAt}`
queued for a human reviewer; a resolved task is closed (spec §3, §4.5). -/
structure ReviewTask where
  taskId : Nat
  runId : Nat
  payload : ExtractionState
  createdAt : Nat
  isOpen : Bool
deriving DecidableEq, Repr

/-- Modelled from the spec: reviewer verdict `{approve|reject|edit,
editedPayload?}` (spec §3); an edited verdict overrides the draft before
commit (spec §9). -/
inductive Verdict where
  | approve
  | reject
  | edit (editedPayload : RecordData)
deriving DecidableEq, Repr

/-! ### Node contract and GraphRun (spec §3, §4.2) -/

/-- Modelled from the spec: node outcome `ok|retryable-error|fatal-error`;
every failure is recorded with a reason (spec §3, §7). -/
inductive Outcome where
  | ok
  | retryableError
  | fatalError (reason : String)
deriving DecidableEq, Repr

/-- Modelled from the spec: GraphRun status
`running|suspended|completed|failed` (spec §3). -/
inductive RunStatus where
  | running
  | suspended
  | completed
  | failed
deriving DecidableEq, Repr

/-- Modelled from the spec: the two built-in graph kinds (spec §4.3). -/
inductive GKind where
  | extraction
  | qa
deriving DecidableEq, Repr

/-- Modelled from the spec: `NodeResult = {nodeName, outcome, statePatch,
nextNodes[]}`, the append-only audit trail entry of a run (spec §3). -/
structure NodeResult (ν π : Type) where
  nodeName : ν
  outcome : Outcome
  statePatch : π
  nextNodes : List ν
deriving DecidableEq, Repr

/-- Modelled from the spec: `GraphRun = {id, graphKind, status,
currentState, history[NodeResult], retryCounts}` plus the last error
surfaced on failure (spec §3, §7). -/
structure GraphRun (ν σ π : Type) where
  id : Nat
  graphKind : GKind
  status : RunStatus
  currentState : σ
  history : List (NodeResult ν π)
  retryCounts : ν → Nat
  failReason : Option String

/-- Modelled from the spec: the nodes of the extraction graph
`OCR → NER → VLM-refine → persist-draft → review-gate →
{commit-record + index-vector ; mark-discarded}` (spec §4.3). -/
inductive ENode where
  | ocr
  | ner
  | vlm
  | persistDraft
  | reviewGate
  | commitRecord
  | indexVector
  | markDiscarded
deriving DecidableEq, Repr

abbrev ExNodeResult := NodeResult ENode EPatch
abbrev ExRun := GraphRun ENode ExtractionState EPatch

/-- Modelled from the spec: the frontier of ready nodes is driven by the
`nextNodes` of the last applied NodeResult; a fresh run starts at the
declared entry node (spec §4.3, §4.4 steps 1-3). -/
def frontierOf (r : ExRun) : List ENode :=
  match r.history.getLast? with
  | none => [ENode.ocr]
  | some nr => nr.nextNodes

/-! ### Capability calls and the engine environment (spec §6, §4.4) -/

/-- Modelled from the spec: result of one capability invocation — success
or a `capability-transient` failure (timeout, rate-limit) that is retried
per node policy (spec §7). -/
inductive CapResult (α : Type) where
  | ok (val : α)
  | transient
deriving DecidableEq, Repr

/-- Modelled from the spec: OCR output `{text, regions[]}` (spec §6). -/
structure OcrOut where
  text : String
  regions : List String
deriving DecidableEq, Repr

/-- Modelled from the spec: vision-language refinement output
`refinedRecord, confidenceScores` (spec §6). -/
structure Refinement where
  record : RecordData
  scores : List Nat
deriving DecidableEq, Repr

/-- Modelled from the spec: the external capability providers consumed by
extraction nodes, indexed by the attempt number so that transient
failures of individual attempts can be expressed, plus the configured
maximum attempts of the retry policy (spec §4.4 step 4, §6). -/
structure Env where
  maxAttempts : Nat
  ocr : Nat → CapResult OcrOut
  ner : String → Nat → CapResult (List Entity)
  vlm : List Entity → Nat → CapResult Refinement
  persist : Nat → CapResult Unit
  commit : Nat → CapResult Unit
  index : Nat → CapResult Unit
  discard : Nat → CapResult Unit

/-- Modelled from the spec: the world visible to one extraction run — the
run itself (single-writer, spec §5), the review queue, the create-only
structured-record store and the vector index (spec §6). -/
structure World where
  run : ExRun
  tasks : List ReviewTask
  records : List ConstructionRecord
  vecIndex : List String
  nextTaskId : Nat

/-- The record committed for a run, built from the refined (possibly
reviewer-edited) extraction state (spec §3, §9). -/
def mkRecord (r : ExRun) : ConstructionRecord :=
  { runId := r.id, data := r.currentState.refinedRecord.getD {} }

/-! ### The engine step (spec §4.4) -/

/-- Modelled from the spec: one node execution with the engine retry
policy — on `ok` append the NodeResult, merge the patch, advance to
`nextNodes` (completed on a terminal node); on a transient failure retry
the same node up to `maxAttempts`, recording each failed attempt; on
exhaustion convert to `fatal-error`, mark the run `failed` and stop
advancing (spec §4.4 steps 3-5, 8; §7). -/
def runCap {α : Type} (env : Env) (w : World) (n : ENode) (cap : String)
    (oracle : Nat → CapResult α) (mkPatch : α → EPatch) (succ : List ENode)
    (eff : α → World → World) : World :=
  let k := w.run.retryCounts n
  match oracle k with
  | .ok a =>
      let w1 := eff a w
      let nr : ExNodeResult :=
        { nodeName := n, outcome := .ok, statePatch := mkPatch a, nextNodes := succ }
      { w1 with run := { w1.run with
          history := w1.run.history ++ [nr],
          currentState := applyEPatch w1.run.currentState (mkPatch a),
          status := if succ.isEmpty then .completed else .running } }
  | .transient =>
      if k + 1 < env.maxAttempts then
        let nr : ExNodeResult :=
          { nodeName := n, outcome := .retryableError, statePatch := EPatch.empty,
            nextNodes := [n] }
        { w with run := { w.run with
            history := w.run.history ++ [nr],
            currentState := applyEPatch w.run.currentState EPatch.empty,
            retryCounts := fun m => if m = n then k + 1 else w.run.retryCounts m } }
      else
        let reason := "capability-fatal:" ++ cap
        let nr : ExNodeResult :=
          { nodeName := n, outcome := .fatalError reason, statePatch := EPatch.empty,
            nextNodes := [] }
        { w with run := { w.run with
            history := w.run.history ++ [nr],
            currentState := applyEPatch w.run.currentState EPatch.empty,
            status := .failed,
            failReason := some reason } }

/-- Modelled from the spec: on reaching the Review Gate the engine creates
exactly one ReviewTask, persists it and sets the run `suspended`
(spec §4.4 step 6, §4.5); re-entering the gate for the same run is
disallowed (spec §4.5), so a run that already owns a task is not given a
second one. -/
def enterGate (w : World) : World :=
  if w.tasks.any (fun t => decide (t.runId = w.run.id)) then w
  else
    let t : ReviewTask :=
      { taskId := w.nextTaskId, runId := w.run.id, payload := w.run.currentState,
        createdAt := w.run.history.length, isOpen := true }
    { w with tasks := w.tasks ++ [t], nextTaskId := w.nextTaskId + 1,
             run := { w.run with status := .suspended } }

/-- Modelled from the spec: execution of one frontier node of the
extraction graph, dispatching to the capability the node declares
(spec §4.2, §4.3). -/
def stepNode (env : Env) (w : World) (n : ENode) : World :=
  match n with
  | .ocr =>
      runCap env w .ocr "OCR" env.ocr
        (fun o => { ocrText := some o.text, ocrRegions := some o.regions })
        [ENode.ner] (fun _ w' => w')
  | .ner =>
      runCap env w .ner "NER" (env.ner (w.run.currentState.ocrText.getD ""))
        (fun es => { candidateEntities := some es })
        [ENode.vlm] (fun _ w' => w')
  | .vlm =>
      runCap env w .vlm "VLM" (env.vlm w.run.currentState.candidateEntities)
        (fun rf => { refinedRecord := some rf.record, confidenceScores := some rf.scores })
        [ENode.persistDraft] (fun _ w' => w')
  | .persistDraft =>
      runCap env w .persistDraft "persistence" env.persist
        (fun _ => { reviewStatus := some .draft })
        [ENode.reviewGate] (fun _ w' => w')
  | .reviewGate => enterGate w
  | .commitRecord =>
      runCap env w .commitRecord "persistence" env.commit
        (fun _ => EPatch.empty)
        [ENode.indexVector]
        (fun _ w' => { w' with records := w'.records ++ [mkRecord w.run] })
  | .indexVector =>
      runCap env w .indexVector "vector-store" env.index
        (fun _ => EPatch.empty)
        []
        (fun _ w' => { w' with vecIndex := w'.vecIndex ++ [w.run.currentState.documentRef] })
  | .markDiscarded =>
      runCap env w .markDiscarded "persistence" env.discard
        (fun _ => EPatch.empty)
        [] (fun _ w' => w')

/-- Modelled from the spec: one scheduling step of the engine — a run that
is not `running` is not advanced (a suspended run waits for an external
verdict; a failed or completed run stops, spec §4.4). -/
def tick (env : Env) (w : World) : World :=
  if w.run.status = RunStatus.running then
    match frontierOf w.run with
    | [n] => stepNode env w n
    | _ => w
  else w

/-- Modelled from the spec: the state patch carried by a verdict — the
verdict is treated as the Review Gate node's output patch (spec §4.4
step 7); `edit` overrides the draft and approves it (spec §9). -/
def verdictPatch (v : Verdict) : EPatch :=
  match v with
  | .approve => { reviewStatus := some .approved }
  | .reject => { reviewStatus := some .rejected }
  | .edit r => { refinedRecord := some r, reviewStatus := some .approved }

/-- Modelled from the spec: routing after the gate —
`{approved: commit-record ; rejected: mark-discarded}` (spec §4.3). -/
def verdictNext (v : Verdict) : List ENode :=
  match v with
  | .approve => [ENode.commitRecord]
  | .reject => [ENode.markDiscarded]
  | .edit _ => [ENode.commitRecord]

/-- Modelled from the spec: an external resume event carrying a verdict —
the engine reloads the suspended run, closes the resolved task, records
the verdict as the gate's NodeResult and continues at the gate's
successors with status `running` (spec §4.4 step 7, §6 resolveReview). -/
def resolveReview (w : World) (tid : Nat) (v : Verdict) : World :=
  if w.run.status = RunStatus.suspended then
    match w.tasks.find? (fun t => t.isOpen && decide (t.taskId = tid) &&
        decide (t.runId = w.run.id)) with
    | some _ =>
        let nr : ExNodeResult :=
          { nodeName := ENode.reviewGate, outcome := .ok,
            statePatch := verdictPatch v, nextNodes := verdictNext v }
        { w with
          tasks := w.tasks.map (fun t =>
            if t.taskId = tid then { t with isOpen := false } else t),
          run := { w.run with
            status := .running,
            history := w.run.history ++ [nr],
            currentState := applyEPatch w.run.currentState (verdictPatch v) } }
    | none => w
  else w

/-- Modelled from the spec: the two kinds of events that advance a
persisted run — an engine scheduling step, or an external review
resolution (spec §4.4). -/
inductive Event where
  | tick
  | resolve (taskId : Nat) (v : Verdict)

/-- Apply one event to the world. -/
def applyEvent (env : Env) (w : World) (e : Event) : World :=
  match e with
  | .tick => tick env w
  | .resolve tid v => resolveReview w tid v

/-- Run a sequence of events from an initial world. -/
def runEvents (env : Env) (evts : List Event) (w0 : World) : World :=
  evts.foldl (applyEvent env) w0

/-- Modelled from the spec: the extraction run state created for a freshly
received document (spec §3: Document immutable once received). -/
def initES (docRef : String) : ExtractionState :=
  { documentRef := docRef, ocrText := none, ocrRegions := [],
    candidateEntities := [], refinedRecord := none, confidenceScores := [],
    reviewStatus := .draft }

/-- Modelled from the spec: a freshly instantiated extraction GraphRun
(spec §4.6): status `running`, empty history, zero retry counts. -/
def freshExRun (id : Nat) (docRef : String) : ExRun :=
  { id := id, graphKind := .extraction, status := .running,
    currentState := initES docRef, history := [], retryCounts := fun _ => 0,
    failReason := none }

/-- The world of a fresh extraction run: empty review queue, empty record
store, empty vector index. -/
def initWorld (docRef : String) (id : Nat) : World :=
  { run := freshExRun id docRef, tasks := [], records := [], vecIndex := [],
    nextTaskId := 0 }

/-- The open tasks of the review queue. -/
def openTasks (w : World) : List ReviewTask :=
  w.tasks.filter (fun t => t.isOpen)

/-- How many NodeResults of the history belong to the Review Gate. -/
def gateResults (h : List ExNodeResult) : Nat :=
  (h.filter (fun nr => decide (nr.nodeName = ENode.reviewGate))).length

/-- Fold a NodeResult history over an initial state, applying each
`statePatch` in order (spec §3 invariant). -/
def foldPatches (s0 : ExtractionState) (h : List ExNodeResult) : ExtractionState :=
  h.foldl (fun s nr => applyEPatch s nr.statePatch) s0

/-! ### QA pipeline (spec §3, §4.3, §4.7) -/

/-- Modelled from the spec: a ranked semantic match with a relevance score
and a source-document reference (spec §4.7, §6 rankedHits). -/
structure Hit where
  score : Nat
  docRef : String
deriving DecidableEq, Repr

/-- Modelled from the spec: `QueryState = {question, plannedTools[],
sqlResult?, vectorHits?, answer, citations[]}` (spec §3). -/
structure QueryState where
  question : String
  plannedTools : List String
  sqlResult : Option (List RecordData)
  vectorHits : Option (List Hit)
  answer : Option String
  citations : List String
deriving DecidableEq, Repr

/-- Modelled from the spec: a partial update of a QueryState returned by a
QA node (spec §4.1). -/
structure QPatch where
  plannedTools : Option (List String) := none
  sqlResult : Option (List RecordData) := none
  vectorHits : Option (List Hit) := none
  answer : Option String := none
  citations : Option (List String) := none
deriving DecidableEq, Repr

/-- Modelled from the spec: the engine merge of a QA patch into a
QueryState snapshot (spec §4.1). -/
def applyQPatch (s : QueryState) (p : QPatch) : QueryState :=
  { question := s.question
    plannedTools := p.plannedTools.getD s.plannedTools
    sqlResult := match p.sqlResult with | some r => some r | none => s.sqlResult
    vectorHits := match p.vectorHits with | some h => some h | none => s.vectorHits
    answer := match p.answer with | some a => some a | none => s.answer
    citations := p.citations.getD s.citations }

/-- Modelled from the spec: the patch produced by the `sql-query` fan-out
node — it contributes the structured rows (spec §4.3, §6). -/
def sqlQueryPatch (rows : List RecordData) : QPatch :=
  { sqlResult := some rows }

/-- Modelled from the spec: the patch produced by the `vector-search`
fan-out node — it contributes the ranked semantic hits (spec §4.3, §6). -/
def vectorSearchPatch (hits : List Hit) : QPatch :=
  { sqlResult := none, vectorHits := some hits }

/-- Modelled from the spec: the engine merges the patches of completed
fan-out siblings into the shared QueryState in their completion order
(spec §4.1, §4.4 step 2). -/
def mergeFanOut (s : QueryState) (ps : List QPatch) : QueryState :=
  ps.foldl applyQPatch s

/-- Modelled from the spec: the explicit "insufficient data" answer the
synthesis node must return when both sources are empty (spec §4.7). -/
def insufficientAnswer : String := "insufficient data"

/-- Modelled from the spec: the answer-synthesis terminal node — if both
`sqlResult` and `vectorHits` are empty it returns the explicit
"insufficient data" answer with empty citations by a deterministic policy
check; only otherwise does it hand the material to the composing language
model `synthesize(question, rows, hits)` (spec §4.7, §6). -/
def synthesizeNode
    (llm : String → List RecordData → List Hit → String × List String)
    (s : QueryState) : QPatch :=
  let rows := s.sqlResult.getD []
  let hits := s.vectorHits.getD []
  if rows.isEmpty && hits.isEmpty then
    { answer := some insufficientAnswer, citations := some [] }
  else
    let ac := llm s.question rows hits
    { answer := some ac.1, citations := some ac.2 }

/-! ### Orchestrator (spec §4.6) -/

/-- Modelled from the spec: the nodes of the QA graph
`plan-intent → fan-out{sql-query, vector-search} → synthesize-answer`
(spec §4.3). -/
inductive QNode where
  | planIntent
  | sqlQuery
  | vectorSearch
  | synthesizeAnswer
deriving DecidableEq, Repr

abbrev QaRun := GraphRun QNode QueryState QPatch

/-- Modelled from the spec: a raw upload — bytes reference plus media
type (spec §3 Document). -/
structure Document where
  docRef : String
  mediaType : String
deriving DecidableEq, Repr

/-- Modelled from the spec: an inbound request — a document may be
attached, a question may be present (spec §4.6). -/
structure Request where
  document : Option Document
  question : Option String
deriving DecidableEq, Repr

/-- Modelled from the spec: the QA run state created for a question. -/
def initQS (q : String) : QueryState :=
  { question := q, plannedTools := [], sqlResult := none, vectorHits := none,
    answer := none, citations := [] }

/-- Modelled from the spec: a freshly instantiated QA GraphRun. -/
def freshQaRun (id : Nat) (q : String) : QaRun :=
  { id := id, graphKind := .qa, status := .running, currentState := initQS q,
    history := [], retryCounts := fun _ => 0, failReason := none }

/-- A GraphRun of either built-in graph kind. -/
inductive AnyRun where
  | ext (r : ExRun)
  | qa (r : QaRun)

/-- Modelled from the spec: the Orchestrator's single entry point — it
determines `graphKind` (extraction if a document is attached, QA if only a
question is present), instantiates one GraphRun and hands it to the
engine; no other business logic (spec §4.6). -/
def orchestrate (req : Request) (freshId : Nat) : Option AnyRun :=
  match req.document with
  | some d => some (.ext (freshExRun freshId d.docRef))
  | none =>
      match req.question with
      | some q => some (.qa (freshQaRun freshId q))
      | none => none

/-! ### Frontend (`App.vue`) — embedded from the source -/

/-- The record form of `App.vue` (`recordForm`); numeric inputs are
nullable numbers in the source and are embedded as `Option Rat` /
`Option Nat`. -/
structure RecordForm where
  project_id : String
  date : String
  activity_type : String
  quantity : Option Rat
  unit : String
  location : String
  descr : String
  workers_count : Option Nat
  equipment : String
  issues : String
deriving DecidableEq, Repr

/-- The default form values of `App.vue` (initial `recordForm.value` and
the object assigned after a successful submit); `today` stands for
`new Date().toISOString().split(sep)[0]`. -/
def defaultForm (today : String) : RecordForm :=
  { project_id := "proj-001", date := today, activity_type := "混凝土浇筑",
    quantity := none, unit := "方", location := "A区", descr := "",
    workers_count := none, equipment := "", issues := "" }

/-- The statistics object served by `/api/stats` and held in
`stats.value`. -/
structure StatsData where
  total_records : Nat
  total_concrete : Nat
  avg_workers_7d : Nat
  problem_count : Nat
deriving DecidableEq, Repr

/-- The `response.data` of `/api/query` held in `queryResult.value`:
`{success, answer, data}`. -/
structure QueryResp where
  success : Bool
  answer : String
  data : List RecordData
deriving DecidableEq, Repr

/-- Outcome of one axios call: a response object, or a thrown error
(network failure / non-2xx status) landing in the `catch` branch. -/
inductive AxiosResult (α : Type) where
  | ok (resp : α)
  | err
deriving DecidableEq, Repr

/-- `response.data` of `/api/stats`: `{success, data}`. -/
structure StatsResp where
  success : Bool
  data : StatsData
deriving DecidableEq, Repr

/-- `response.data` of `GET /api/records`: `{success, data}`. -/
structure RecordsResp where
  success : Bool
  data : List RecordData
deriving DecidableEq, Repr

/-- `response.data` of `POST /api/records`: `{success}`. -/
structure SubmitResp where
  success : Bool
deriving DecidableEq, Repr

/-- The multipart request body built by `submitRecord`: the serialized
form plus the optional attached file. -/
structure SubmitReq where
  record : RecordForm
  file : Option String
deriving DecidableEq, Repr

/-- The request body of `POST /api/query`: `{question}`. -/
structure QueryReq where
  question : String
deriving DecidableEq, Repr

/-- The reactive state of the `App.vue` component. -/
structure AppState where
  stats : StatsData
  records : List RecordData
  isLoading : Bool
  recordForm : RecordForm
  uploadFile : Option String
  queryText : String
  queryResult : Option QueryResp
  queryLoading : Bool
deriving DecidableEq, Repr

/-- The characters stripped by JS `String.prototype.trim()`: the ECMA-262
WhiteSpace set (TAB, VT, FF, SP, NBSP, ZWNBSP and the Unicode
Space_Separator category: U+1680, U+2000-U+200A, U+202F, U+205F and the
ideographic space U+3000) plus the LineTerminator set (LF, CR, LS U+2028,
PS U+2029). -/
def jsWhitespace (c : Char) : Bool :=
  c == ' ' || c == '\t' || c == '\n' || c == '\r' || c == '\x0b' || c == '\x0c' ||
  c == '\u00A0' || c == '\u1680' ||
  c == '\u2000' || c == '\u2001' || c == '\u2002' || c == '\u2003' ||
  c == '\u2004' || c == '\u2005' || c == '\u2006' || c == '\u2007' ||
  c == '\u2008' || c == '\u2009' || c == '\u200A' ||
  c == '\u2028' || c == '\u2029' || c == '\u202F' || c == '\u205F' ||
  c == '\u3000' || c == '\uFEFF'

/-- JS `String.prototype.trim()` as used by `executeQuery`; strips
whitespace from both ends, so the `!queryText.value.trim()` guard fires
exactly on empty or all-whitespace input. -/
def jsTrim (s : String) : String :=
  String.mk (((s.data.dropWhile jsWhitespace).reverse.dropWhile jsWhitespace).reverse)

/-- `fetchStats` of `App.vue`: on a successful response with
`success: true`, store `response.data.data`; otherwise leave state
unchanged (errors are only logged). -/
def fetchStats (st : AppState) (resp : AxiosResult StatsResp) : AppState :=
  match resp with
  | .ok r => if r.success then { st with stats := r.data } else st
  | .err => st

/-- `fetchRecords` of `App.vue`: sets `isLoading`, stores
`response.data.data` on `success: true`, and clears `isLoading` in the
`finally` block. -/
def fetchRecords (st : AppState) (resp : AxiosResult RecordsResp) : AppState :=
  let st1 : AppState := { st with isLoading := true }
  let st2 : AppState :=
    match resp with
    | .ok r => if r.success then { st1 with records := r.data } else st1
    | .err => st1
  { st2 with isLoading := false }

/-- `executeQuery` of `App.vue`: if the trimmed query text is empty, warn
and return without issuing a request; otherwise POST
`{question: queryText.value}` (the untrimmed text) to `/api/query` and,
on `success: true`, store the response in `queryResult`.  The returned
pair carries the new state and the request that was sent, if any. -/
def executeQuery (st : AppState)
    (respond : QueryReq → AxiosResult QueryResp) : AppState × Option QueryReq :=
  if jsTrim st.queryText = "" then
    (st, none)
  else
    let req : QueryReq := { question := st.queryText }
    let st1 : AppState := { st with queryLoading := true }
    let st2 : AppState :=
      match respond req with
      | .ok r => if r.success then { st1 with queryResult := some r } else st1
      | .err => st1
    ({ st2 with queryLoading := false }, some req)

/-- `submitRecord` of `App.vue`: always POSTs the form (plus the attached
file, when present) to `/api/records`; only on a response with
`success: true` does it reset the form to its defaults, clear the file
and refetch records and statistics; a response with `success: false` or a
thrown error leaves the state untouched (the error is only toasted).  The
returned pair carries the new state and the request sent. -/
def submitRecord (st : AppState) (today : String)
    (respond : SubmitReq → AxiosResult SubmitResp)
    (recResp : AxiosResult RecordsResp) (statResp : AxiosResult StatsResp) :
    AppState × Option SubmitReq :=
  let req : SubmitReq := { record := st.recordForm, file := st.uploadFile }
  match respond req with
  | .ok r =>
      if r.success then
        let st1 : AppState :=
          { st with recordForm := defaultForm today, uploadFile := none }
        let st2 := fetchRecords st1 recResp
        let st3 := fetchStats st2 statResp
        (st3, some req)
      else (st, some req)
  | .err => (st, some req)

/-! ### Reachability invariant of the extraction engine -/

/-- All tasks of the queue are resolved (closed). -/
def allClosed (ts : List ReviewTask) : Prop := ∀ t ∈ ts, t.isOpen = false

/-- Invariant of the phases before the Review Gate (frontier at OCR, NER,
VLM or persist-draft): the run is advancing, nothing is committed, no
task exists, the gate has not executed. -/
def PreGateInv (w : World) : Prop :=
  w.run.status = .running ∧ w.run.currentState.reviewStatus = .draft ∧
  w.tasks = [] ∧ w.records = [] ∧ gateResults w.run.history = 0

/-- Invariant at the Review Gate frontier: either the gate has not been
entered yet (running, no task), or the run is suspended on exactly one
open task of this run. -/
def GateInv (w : World) : Prop :=
  w.run.currentState.reviewStatus = .draft ∧ w.records = [] ∧
  gateResults w.run.history = 0 ∧
  ((w.run.status = .running ∧ w.tasks = []) ∨
   (w.run.status = .suspended ∧
     ∃ t, w.tasks = [t] ∧ t.isOpen = true ∧ t.runId = w.run.id))

/-- Invariant at the commit frontier: approved, gate executed once, task
resolved, record not yet committed. -/
def CommitInv (w : World) : Prop :=
  w.run.status = .running ∧ w.run.currentState.reviewStatus = .approved ∧
  w.records = [] ∧ allClosed w.tasks ∧ gateResults w.run.history = 1

/-- Invariant at the index frontier: approved, record committed. -/
def IndexInv (w : World) : Prop :=
  w.run.status = .running ∧ w.run.currentState.reviewStatus = .approved ∧
  w.records ≠ [] ∧ allClosed w.tasks ∧ gateResults w.run.history = 1

/-- Invariant at the discard frontier: rejected, nothing committed. -/
def DiscardInv (w : World) : Prop :=
  w.run.status = .running ∧ w.run.currentState.reviewStatus = .rejected ∧
  w.records = [] ∧ allClosed w.tasks ∧ gateResults w.run.history = 1

/-- Invariant of a stopped run (empty frontier): completed or failed; a
record exists only with approval, and a completed run has a record
exactly on the approved branch. -/
def DoneInv (w : World) : Prop :=
  (w.run.status = .completed ∨ w.run.status = .failed) ∧
  allClosed w.tasks ∧ gateResults w.run.history ≤ 1 ∧
  (w.records ≠ [] → w.run.currentState.reviewStatus = .approved) ∧
  (w.run.status = .completed →
    (w.run.currentState.reviewStatus = .approved ∧ w.records ≠ []) ∨
    (w.run.currentState.reviewStatus = .rejected ∧ w.records = []))

/-- The phase invariant, dispatching on the frontier of the run. -/
def PhaseInv (w : World) : Prop :=
  match frontierOf w.run with
  | [ENode.ocr] => PreGateInv w
  | [ENode.ner] => PreGateInv w
  | [ENode.vlm] => PreGateInv w
  | [ENode.persistDraft] => PreGateInv w
  | [ENode.reviewGate] => GateInv w
  | [ENode.commitRecord] => CommitInv w
  | [ENode.indexVector] => IndexInv w
  | [ENode.markDiscarded] => DiscardInv w
  | [] => DoneInv w
  | _ => False

/-- The reachability invariant of an extraction world. -/
def Inv (w : World) : Prop := PhaseInv w

/-! ### Concrete fixtures (used to evaluate the model on closed inputs) -/

/-- A concrete OCR output for the legible concrete-pour scenario. -/
def okOcr : OcrOut := { text := "80方混凝土", regions := ["r1"] }

/-- Concrete NER entities. -/
def okEntities : List Entity :=
  [{ label := "activityType", value := "混凝土浇筑" },
   { label := "quantity", value := "80" }]

/-- Concrete refined record. -/
def okRecord : RecordData :=
  { activityType := "混凝土浇筑", quantity := 80, unit := "方" }

/-- An environment in which every capability succeeds at every attempt. -/
def envHappy : Env :=
  { maxAttempts := 3,
    ocr := fun _ => .ok okOcr,
    ner := fun _ _ => .ok okEntities,
    vlm := fun _ _ => .ok { record := okRecord, scores := [90] },
    persist := fun _ => .ok (),
    commit := fun _ => .ok (),
    index := fun _ => .ok (),
    discard := fun _ => .ok () }

/-- The environment of the OCR-timeout scenario: the OCR capability times
out on every attempt; the configured maximum is 3 (spec §8). -/
def envOcrTimeout : Env := { envHappy with ocr := fun _ => .transient }

/-- Engine steps that drive a fresh extraction run to the Review Gate. -/
def gateTrace : List Event := [.tick, .tick, .tick, .tick, .tick]

/-- A full happy-path trace: to the gate, approve, commit, index. -/
def happyTrace : List Event := gateTrace ++ [.resolve 0 .approve, .tick, .tick]

/-- A rejection trace: to the gate, reject, discard. -/
def rejectTrace : List Event := gateTrace ++ [.resolve 0 .reject, .tick]

/-- A concrete frontend state fixture. -/
def sampleApp : AppState :=
  { stats := { total_records := 0, total_concrete := 0, avg_workers_7d := 0,
               problem_count := 0 },
    records := [], isLoading := false,
    recordForm := defaultForm "2026-10-12", uploadFile := none,
    queryText := "", queryResult := none, queryLoading := false }

/-- A concrete QueryState with both retrieval sources empty. -/
def emptyQS : QueryState :=
  { initQS "上周浇筑了多少混凝土？" with sqlResult := some [], vectorHits := some [] }

/-- A concrete composing language model that fabricates content; used to
show the policy check does not consult it. -/
def fabricatingLlm : String → List RecordData → List Hit → String × List String :=
  fun q _ _ => ("fabricated answer to " ++ q, ["bogus citation"])

/-- A second concrete language model. -/
def echoLlm : String → List RecordData → List Hit → String × List String :=
  fun q _ _ => (q, [])

/-! ### Basic lemmas about the engine -/

theorem frontier_hist (r : ExRun) (h : List ExNodeResult) (nr : ExNodeResult)
    (hh : r.history = h ++ [nr]) : frontierOf r = nr.nextNodes := by
  simp [frontierOf, hh, List.getLast?_concat]

theorem applyEPatch_empty (s : ExtractionState) : applyEPatch s EPatch.empty = s := rfl

theorem foldPatches_concat (s0 : ExtractionState) (h : List ExNodeResult)
    (nr : ExNodeResult) :
    foldPatches s0 (h ++ [nr]) = applyEPatch (foldPatches s0 h) nr.statePatch := by
  simp [foldPatches, List.foldl_append]

theorem foldPatches_append (s0 : ExtractionState) (h tl : List ExNodeResult) :
    foldPatches s0 (h ++ tl) = foldPatches (foldPatches s0 h) tl := by
  simp [foldPatches, List.foldl_append]

theorem gateResults_concat (h : List ExNodeResult) (nr : ExNodeResult) :
    gateResults (h ++ [nr]) =
      gateResults h + (if nr.nodeName = ENode.reviewGate then 1 else 0) := by
  by_cases hn : nr.nodeName = ENode.reviewGate <;>
    simp [gateResults, List.filter_append, hn]

/-- One capability node execution appends exactly one NodeResult and
merges exactly its patch into the state, provided the node's external
effect does not touch the run itself. -/
theorem runCap_run {α : Type} (env : Env) (w : World) (n : ENode) (cap : String)
    (oracle : Nat → CapResult α) (mkPatch : α → EPatch) (succ : List ENode)
    (eff : α → World → World) (heff : ∀ a w', (eff a w').run = w'.run) :
    ∃ tl, (runCap env w n cap oracle mkPatch succ eff).run.history = w.run.history ++ tl ∧
      (runCap env w n cap oracle mkPatch succ eff).run.currentState =
        foldPatches w.run.currentState tl := by
  unfold runCap
  cases ho : oracle (w.run.retryCounts n) with
  | ok a =>
      refine ⟨[⟨n, .ok, mkPatch a, succ⟩], ?_, ?_⟩ <;> simp [ho, heff, foldPatches]
  | transient =>
      simp only [ho]
      by_cases hk : w.run.retryCounts n + 1 < env.maxAttempts <;>
        simp only [hk, if_true, if_false, ite_true, ite_false] <;>
        exact ⟨[_], rfl, rfl⟩

/-- Each event appends a (possibly empty) suffix to the history and
changes the current state exactly by folding that suffix's patches. -/
theorem step_run (env : Env) (w : World) (e : Event) :
    ∃ tl, (applyEvent env w e).run.history = w.run.history ++ tl ∧
      (applyEvent env w e).run.currentState = foldPatches w.run.currentState tl := by
  cases e with
  | tick =>
      simp only [applyEvent]
      unfold tick
      split
      · split
        · rename_i n hf
          cases n <;> simp only [stepNode]
          case reviewGate =>
            refine ⟨[], ?_⟩
            unfold enterGate
            split <;> simp [foldPatches]
          all_goals
            exact runCap_run env w _ _ _ _ _ _ (fun a w' => rfl)
        · exact ⟨[], by simp [foldPatches]⟩
      · exact ⟨[], by simp [foldPatches]⟩
  | resolve tid v =>
      simp only [applyEvent]
      unfold resolveReview
      split
      · split
        · exact ⟨[{ nodeName := ENode.reviewGate, outcome := .ok,
                    statePatch := verdictPatch v, nextNodes := verdictNext v }],
                 rfl, rfl⟩
        · exact ⟨[], by simp [foldPatches]⟩
      · exact ⟨[], by simp [foldPatches]⟩

/-! ### Preservation of the reachability invariant -/

theorem inv_init (d : String) (i : Nat) : Inv (initWorld d i) := by
  simp [Inv, PhaseInv, PreGateInv, initWorld, freshExRun, frontierOf, initES,
    gateResults]

theorem Inv_mk_gate (w : World) (hf : frontierOf w.run = [ENode.reviewGate])
    (h : GateInv w) : Inv w := by
  simp only [Inv, PhaseInv, hf]; exact h

theorem inv_tick (env : Env) (w : World) (hInv : Inv w) : Inv (tick env w) := by
  unfold tick
  split
  · rename_i hs
    split
    · rename_i n hf
      cases n
      case ocr =>
        simp only [Inv, PhaseInv, hf] at hInv
        obtain ⟨hrun, hrs, htasks, hrecs, hgate⟩ := hInv
        simp only [stepNode]
        cases ho : env.ocr (w.run.retryCounts ENode.ocr) with
        | ok a =>
            unfold runCap
            simp only [ho]
            simp [Inv, PhaseInv, PreGateInv, frontierOf, List.getLast?_concat,
              gateResults_concat, applyEPatch, hrs, htasks, hrecs, hgate]
        | transient =>
            unfold runCap
            simp only [ho]
            by_cases hk : w.run.retryCounts ENode.ocr + 1 < env.maxAttempts <;>
              simp only [hk, ite_true, ite_false] <;>
              simp [Inv, PhaseInv, PreGateInv, DoneInv, frontierOf,
                List.getLast?_concat, gateResults_concat, applyEPatch, allClosed,
                EPatch.empty, hs, hrs, htasks, hrecs, hgate]
      case ner =>
        simp only [Inv, PhaseInv, hf] at hInv
        obtain ⟨hrun, hrs, htasks, hrecs, hgate⟩ := hInv
        simp only [stepNode]
        cases ho : env.ner (w.run.currentState.ocrText.getD "")
            (w.run.retryCounts ENode.ner) with
        | ok a =>
            unfold runCap
            simp only [ho]
            simp [Inv, PhaseInv, PreGateInv, frontierOf, List.getLast?_concat,
              gateResults_concat, applyEPatch, hrs, htasks, hrecs, hgate]
        | transient =>
            unfold runCap
            simp only [ho]
            by_cases hk : w.run.retryCounts ENode.ner + 1 < env.maxAttempts <;>
              simp only [hk, ite_true, ite_false] <;>
              simp [Inv, PhaseInv, PreGateInv, DoneInv, frontierOf,
                List.getLast?_concat, gateResults_concat, applyEPatch, allClosed,
                EPatch.empty, hs, hrs, htasks, hrecs, hgate]
      case vlm =>
        simp only [Inv, PhaseInv, hf] at hInv
        obtain ⟨hrun, hrs, htasks, hrecs, hgate⟩ := hInv
        simp only [stepNode]
        cases ho : env.vlm w.run.currentState.candidateEntities
            (w.run.retryCounts ENode.vlm) with
        | ok a =>
            unfold runCap
            simp only [ho]
            simp [Inv, PhaseInv, PreGateInv, frontierOf, List.getLast?_concat,
              gateResults_concat, applyEPatch, hrs, htasks, hrecs, hgate]
        | transient =>
            unfold runCap
            simp only [ho]
            by_cases hk : w.run.retryCounts ENode.vlm + 1 < env.maxAttempts <;>
              simp only [hk, ite_true, ite_false] <;>
              simp [Inv, PhaseInv, PreGateInv, DoneInv, frontierOf,
                List.getLast?_concat, gateResults_concat, applyEPatch, allClosed,
                EPatch.empty, hs, hrs, htasks, hrecs, hgate]
      case persistDraft =>
        simp only [Inv, PhaseInv, hf] at hInv
        obtain ⟨hrun, hrs, htasks, hrecs, hgate⟩ := hInv
        simp only [stepNode]
        cases ho : env.persist (w.run.retryCounts ENode.persistDraft) with
        | ok a =>
            unfold runCap
            simp only [ho]
            simp [Inv, PhaseInv, GateInv, frontierOf, List.getLast?_concat,
              gateResults_concat, applyEPatch, hrs, htasks, hrecs, hgate]
        | transient =>
            unfold runCap
            simp only [ho]
            by_cases hk : w.run.retryCounts ENode.persistDraft + 1 < env.maxAttempts <;>
              simp only [hk, ite_true, ite_false] <;>
              simp [Inv, PhaseInv, PreGateInv, DoneInv, frontierOf,
                List.getLast?_concat, gateResults_concat, applyEPatch, allClosed,
                EPatch.empty, hs, hrs, htasks, hrecs, hgate]
      case reviewGate =>
        simp only [Inv, PhaseInv, hf] at hInv
        obtain ⟨hrs, hrecs, hgate, hdis⟩ := hInv
        rcases hdis with ⟨hrun, htasks⟩ | ⟨hsusp, t, htasks, hopen, hrid⟩
        · simp only [stepNode]
          unfold enterGate
          simp only [htasks, List.any_nil, Bool.false_eq_true, if_false]
          apply Inv_mk_gate
          · exact hf
          · refine ⟨hrs, hrecs, hgate, Or.inr ⟨rfl, ⟨_, rfl, rfl, rfl⟩⟩⟩
        · rw [hsusp] at hs
          cases hs
      case commitRecord =>
        simp only [Inv, PhaseInv, hf] at hInv
        obtain ⟨hrun, hrs, hrecs, hclosed, hgate⟩ := hInv
        have hc : ∀ t ∈ w.tasks, t.isOpen = false := hclosed
        simp only [stepNode]
        cases ho : env.commit (w.run.retryCounts ENode.commitRecord) with
        | ok a =>
            unfold runCap
            simp only [ho]
            simp [Inv, PhaseInv, IndexInv, frontierOf, List.getLast?_concat,
              gateResults_concat, applyEPatch, EPatch.empty, hrs, hrecs, hclosed, hc,
              hgate]
        | transient =>
            unfold runCap
            simp only [ho]
            by_cases hk : w.run.retryCounts ENode.commitRecord + 1 < env.maxAttempts <;>
              simp only [hk, ite_true, ite_false] <;>
              simp [Inv, PhaseInv, CommitInv, DoneInv, frontierOf,
                List.getLast?_concat, gateResults_concat, applyEPatch, allClosed,
                EPatch.empty, hs, hrs, hrecs, hclosed, hc, hgate] <;> exact hc
      case indexVector =>
        simp only [Inv, PhaseInv, hf] at hInv
        obtain ⟨hrun, hrs, hrecs, hclosed, hgate⟩ := hInv
        have hc : ∀ t ∈ w.tasks, t.isOpen = false := hclosed
        simp only [stepNode]
        cases ho : env.index (w.run.retryCounts ENode.indexVector) with
        | ok a =>
            unfold runCap
            simp only [ho]
            simp [Inv, PhaseInv, DoneInv, frontierOf, List.getLast?_concat,
              gateResults_concat, applyEPatch, EPatch.empty, hrs, hrecs, hclosed, hc,
              hgate]
        | transient =>
            unfold runCap
            simp only [ho]
            by_cases hk : w.run.retryCounts ENode.indexVector + 1 < env.maxAttempts <;>
              simp only [hk, ite_true, ite_false] <;>
              simp [Inv, PhaseInv, IndexInv, DoneInv, frontierOf,
                List.getLast?_concat, gateResults_concat, applyEPatch, allClosed,
                EPatch.empty, hs, hrs, hrecs, hclosed, hc, hgate] <;> exact hc
      case markDiscarded =>
        simp only [Inv, PhaseInv, hf] at hInv
        obtain ⟨hrun, hrs, hrecs, hclosed, hgate⟩ := hInv
        have hc : ∀ t ∈ w.tasks, t.isOpen = false := hclosed
        simp only [stepNode]
        cases ho : env.discard (w.run.retryCounts ENode.markDiscarded) with
        | ok a =>
            unfold runCap
            simp only [ho]
            simp [Inv, PhaseInv, DoneInv, frontierOf, List.getLast?_concat,
              gateResults_concat, applyEPatch, EPatch.empty, hrs, hrecs, hclosed, hc,
              hgate]
        | transient =>
            unfold runCap
            simp only [ho]
            by_cases hk : w.run.retryCounts ENode.markDiscarded + 1 < env.maxAttempts <;>
              simp only [hk, ite_true, ite_false] <;>
              simp [Inv, PhaseInv, DiscardInv, DoneInv, frontierOf,
                List.getLast?_concat, gateResults_concat, applyEPatch, allClosed,
                EPatch.empty, hs, hrs, hrecs, hclosed, hc, hgate] <;> exact hc
    · exact hInv
  · exact hInv

theorem Inv_mk_commit (w : World) (hf : frontierOf w.run = [ENode.commitRecord])
    (h : CommitInv w) : Inv w := by
  simp only [Inv, PhaseInv, hf]; exact h

theorem Inv_mk_discard (w : World) (hf : frontierOf w.run = [ENode.markDiscarded])
    (h : DiscardInv w) : Inv w := by
  simp only [Inv, PhaseInv, hf]; exact h

/-- A suspended reachable run is parked at the Review Gate with exactly one
open ReviewTask of this run, a draft state and nothing committed. -/
theorem suspended_gate (w : World) (hInv : Inv w)
    (hs : w.run.status = RunStatus.suspended) :
    frontierOf w.run = [ENode.reviewGate] ∧
    w.run.currentState.reviewStatus = .draft ∧ w.records = [] ∧
    gateResults w.run.history = 0 ∧
    ∃ t, w.tasks = [t] ∧ t.isOpen = true ∧ t.runId = w.run.id := by
  rcases hfm : frontierOf w.run with _ | ⟨n, rest⟩
  · simp only [Inv, PhaseInv, hfm] at hInv
    obtain ⟨hst, -, -, -, -⟩ := hInv
    rcases hst with h | h <;> rw [h] at hs <;> cases hs
  · cases rest with
    | nil =>
        cases n <;> simp only [Inv, PhaseInv, hfm] at hInv <;>
          first
          | (rw [hInv.1] at hs; cases hs)
          | (obtain ⟨hrs, hrecs, hgate, hdis⟩ := hInv
             rcases hdis with ⟨hrun, -⟩ | ⟨hsusp, t, htasks, hopen, hrid⟩
             · rw [hrun] at hs; cases hs
             · exact ⟨rfl, hrs, hrecs, hgate, t, htasks, hopen, hrid⟩)
    | cons m rest2 =>
        simp only [Inv, PhaseInv, hfm] at hInv

theorem inv_resolve (w : World) (tid : Nat) (v : Verdict) (hInv : Inv w) :
    Inv (resolveReview w tid v) := by
  unfold resolveReview
  split
  · rename_i hs
    split
    · rename_i t0 hfind
      obtain ⟨hf, hrs, hrecs, hgate, t, htasks, hopen, hrid⟩ :=
        suspended_gate w hInv hs
      have hp := List.find?_some hfind
      have hmem := List.mem_of_find?_eq_some hfind
      rw [htasks] at hmem
      have ht0 : t0 = t := by simpa using hmem
      rw [ht0] at hp
      simp only [Bool.and_eq_true, decide_eq_true_eq] at hp
      obtain ⟨⟨-, htid⟩, -⟩ := hp
      cases v with
      | approve =>
          apply Inv_mk_commit
          · simp [frontierOf, List.getLast?_concat, verdictNext]
          · exact ⟨rfl, by simp [applyEPatch, verdictPatch], hrecs,
              by simp [allClosed, htasks, htid],
              by simp [gateResults_concat, hgate]⟩
      | edit r =>
          apply Inv_mk_commit
          · simp [frontierOf, List.getLast?_concat, verdictNext]
          · exact ⟨rfl, by simp [applyEPatch, verdictPatch], hrecs,
              by simp [allClosed, htasks, htid],
              by simp [gateResults_concat, hgate]⟩
      | reject =>
          apply Inv_mk_discard
          · simp [frontierOf, List.getLast?_concat, verdictNext]
          · exact ⟨rfl, by simp [applyEPatch, verdictPatch], hrecs,
              by simp [allClosed, htasks, htid],
              by simp [gateResults_concat, hgate]⟩
    · exact hInv
  · exact hInv

theorem inv_step (env : Env) (w : World) (e : Event) (hInv : Inv w) :
    Inv (applyEvent env w e) := by
  cases e with
  | tick => exact inv_tick env w hInv
  | resolve tid v => exact inv_resolve w tid v hInv

theorem inv_runEvents (env : Env) (evts : List Event) (w : World) (hInv : Inv w) :
    Inv (runEvents env evts w) := by
  induction evts generalizing w with
  | nil => exact hInv
  | cons e rest ih =>
      exact ih (applyEvent env w e) (inv_step env w e hInv)

theorem inv_reach (env : Env) (d : String) (i : Nat) (evts : List Event) :
    Inv (runEvents env evts (initWorld d i)) :=
  inv_runEvents env evts (initWorld d i) (inv_init d i)

/-- A capability node whose patch does not mention `reviewStatus` leaves
it unchanged whatever the oracle outcome. -/
theorem runCap_reviewStatus {α : Type} (env : Env) (w : World) (n : ENode)
    (cap : String) (oracle : Nat → CapResult α) (mkPatch : α → EPatch)
    (succ : List ENode) (eff : α → World → World)
    (heff : ∀ a w', (eff a w').run = w'.run)
    (hmk : ∀ a, (mkPatch a).reviewStatus = none) :
    (runCap env w n cap oracle mkPatch succ eff).run.currentState.reviewStatus =
      w.run.currentState.reviewStatus := by
  unfold runCap
  cases ho : oracle (w.run.retryCounts n) with
  | ok a => simp [ho, heff, applyEPatch, hmk]
  | transient =>
      simp only [ho]
      split <;> simp [applyEPatch, EPatch.empty]

/-- One event either leaves `reviewStatus` unchanged, or moves it from
`draft` to a terminal verdict. -/
theorem rs_step (env : Env) (w : World) (e : Event) (hInv : Inv w) :
    (applyEvent env w e).run.currentState.reviewStatus =
      w.run.currentState.reviewStatus ∨
    (w.run.currentState.reviewStatus = .draft ∧
      ((applyEvent env w e).run.currentState.reviewStatus = .approved ∨
       (applyEvent env w e).run.currentState.reviewStatus = .rejected)) := by
  cases e with
  | tick =>
      simp only [applyEvent]
      unfold tick
      split
      · rename_i hs
        split
        · rename_i n hf
          cases n
          case persistDraft =>
            left
            simp only [Inv, PhaseInv, hf] at hInv
            obtain ⟨-, hrs, -, -, -⟩ := hInv
            simp only [stepNode]
            unfold runCap
            cases ho : env.persist (w.run.retryCounts ENode.persistDraft) <;>
              simp only [ho]
            · simp [applyEPatch, hrs]
            · split <;> simp [applyEPatch, EPatch.empty]
          case reviewGate =>
            left
            simp only [stepNode]
            unfold enterGate
            split <;> rfl
          all_goals
            (left
             simp only [stepNode]
             exact runCap_reviewStatus env w _ _ _ _ _ _
               (fun a w' => rfl) (fun a => rfl))
        · left; rfl
      · left; rfl
  | resolve tid v =>
      simp only [applyEvent]
      unfold resolveReview
      split
      · rename_i hs
        split
        · obtain ⟨hf, hrs, -, -, -⟩ := suspended_gate w hInv hs
          right
          refine ⟨hrs, ?_⟩
          cases v <;> simp [applyEPatch, verdictPatch]
        · left; rfl
      · left; rfl

/-- A reachable world holds a record only if the extraction state is
approved. -/
theorem inv_records_approved (w : World) (hInv : Inv w)
    (hne : w.records ≠ []) :
    w.run.currentState.reviewStatus = .approved := by
  rcases hfm : frontierOf w.run with _ | ⟨n, rest⟩
  · simp only [Inv, PhaseInv, hfm] at hInv
    exact hInv.2.2.2.1 hne
  · cases rest with
    | nil =>
        cases n <;> simp only [Inv, PhaseInv, hfm] at hInv <;>
          first
          | exact absurd hInv.2.2.2.1 hne
          | exact absurd hInv.2.1 hne
          | exact absurd hInv.2.2.1 hne
          | exact hInv.2.1
    | cons m rest2 => simp only [Inv, PhaseInv, hfm] at hInv

/-- In a completed reachable world, a record exists exactly on the
approved branch. -/
theorem inv_completed_iff (w : World) (hInv : Inv w)
    (hc : w.run.status = RunStatus.completed) :
    (w.records ≠ [] ↔ w.run.currentState.reviewStatus = .approved) := by
  constructor
  · exact fun hne => inv_records_approved w hInv hne
  · intro happ
    rcases hfm : frontierOf w.run with _ | ⟨n, rest⟩
    · simp only [Inv, PhaseInv, hfm] at hInv
      rcases hInv.2.2.2.2 hc with ⟨-, hne⟩ | ⟨hrej, -⟩
      · exact hne
      · rw [happ] at hrej; cases hrej
    · cases rest with
      | nil =>
          cases n <;> simp only [Inv, PhaseInv, hfm] at hInv <;>
            first
            | (rw [hInv.1] at hc; cases hc)
            | (rcases hInv.2.2.2 with ⟨hrun, -⟩ | ⟨hrun, -⟩ <;>
                rw [hrun] at hc <;> cases hc)
      | cons m rest2 => simp only [Inv, PhaseInv, hfm] at hInv

/-- The Review Gate contributes at most one NodeResult to any reachable
history. -/
theorem inv_gate_le_one (w : World) (hInv : Inv w) :
    gateResults w.run.history ≤ 1 := by
  rcases hfm : frontierOf w.run with _ | ⟨n, rest⟩
  · simp only [Inv, PhaseInv, hfm] at hInv
    exact hInv.2.2.1
  · cases rest with
    | nil =>
        cases n <;> simp only [Inv, PhaseInv, hfm] at hInv <;>
          first
          | simp [hInv.2.2.2.2]
          | simp [hInv.2.2.1]
    | cons m rest2 => simp only [Inv, PhaseInv, hfm] at hInv

/-! ### The claims -/

/-- C1: For every reachable extraction world, a ConstructionRecord exists
only if the ExtractionState reached reviewStatus `approved`, and on a
successful (completed) run a record exists if and only if the state is
`approved`. -/
theorem spec_c1_record_iff_approved (env : Env) (d : String) (i : Nat)
    (evts : List Event) :
    ((runEvents env evts (initWorld d i)).records ≠ [] →
      (runEvents env evts (initWorld d i)).run.currentState.reviewStatus =
        .approved) ∧
    ((runEvents env evts (initWorld d i)).run.status = .completed →
      ((runEvents env evts (initWorld d i)).records ≠ [] ↔
       (runEvents env evts (initWorld d i)).run.currentState.reviewStatus =
         .approved)) := by
  have hInv := inv_reach env d i evts
  exact ⟨fun hne => inv_records_approved _ hInv hne,
         fun hc => inv_completed_iff _ hInv hc⟩

/-- Witness for C1: the concrete happy-path run completes approved and owns
a committed record. -/
theorem spec_c1_witness :
    (runEvents envHappy happyTrace (initWorld "doc" 7)).records ≠ [] :=
  ((spec_c1_record_iff_approved envHappy "doc" 7 happyTrace).2
    (by decide)).2 (by decide)

/-- C2: the Review Gate executes at most once per run; entering it creates
exactly one open ReviewTask and suspends the run; resolving that task with
a verdict closes it and takes the run out of `suspended`. -/
theorem spec_c2_review_gate_once (env : Env) (d : String) (i : Nat)
    (evts : List Event) (v : Verdict) :
    gateResults (runEvents env evts (initWorld d i)).run.history ≤ 1 ∧
    ((runEvents env evts (initWorld d i)).run.status = .running →
      frontierOf (runEvents env evts (initWorld d i)).run = [ENode.reviewGate] →
      ∃ t, openTasks (tick env (runEvents env evts (initWorld d i))) = [t] ∧
        (tick env (runEvents env evts (initWorld d i))).run.status = .suspended) ∧
    ((runEvents env evts (initWorld d i)).run.status = .suspended →
      ∃ t, openTasks (runEvents env evts (initWorld d i)) = [t] ∧
        (resolveReview (runEvents env evts (initWorld d i)) t.taskId v).run.status =
          .running ∧
        openTasks (resolveReview (runEvents env evts (initWorld d i)) t.taskId v) =
          []) := by
  have hInv := inv_reach env d i evts
  refine ⟨inv_gate_le_one _ hInv, ?_, ?_⟩
  · intro hs hf
    simp only [Inv, PhaseInv, hf] at hInv
    obtain ⟨hrs, hrecs, hgate, hdis⟩ := hInv
    rcases hdis with ⟨-, htasks⟩ | ⟨hsusp, t, htasks, hopen, hrid⟩
    · refine ⟨⟨(runEvents env evts (initWorld d i)).nextTaskId,
               (runEvents env evts (initWorld d i)).run.id,
               (runEvents env evts (initWorld d i)).run.currentState,
               (runEvents env evts (initWorld d i)).run.history.length, true⟩,
             ?_, ?_⟩ <;>
        simp [tick, hs, hf, stepNode, enterGate, htasks, openTasks]
    · rw [hsusp] at hs; cases hs
  · intro hs
    obtain ⟨hf, hrs, hrecs, hgate, t, htasks, hopen, hrid⟩ :=
      suspended_gate _ hInv hs
    refine ⟨t, ?_, ?_, ?_⟩ <;>
      simp [openTasks, resolveReview, hs, htasks, hopen, hrid, List.find?]

/-- Witness for C2: resolving the single open task of the concretely
suspended run resumes it. -/
theorem spec_c2_witness :
    ∃ t, openTasks (runEvents envHappy gateTrace (initWorld "doc" 7)) = [t] ∧
      (resolveReview (runEvents envHappy gateTrace (initWorld "doc" 7))
        t.taskId Verdict.approve).run.status = .running ∧
      openTasks (resolveReview (runEvents envHappy gateTrace (initWorld "doc" 7))
        t.taskId Verdict.approve) = [] :=
  (spec_c2_review_gate_once envHappy "doc" 7 gateTrace Verdict.approve).2.2
    (by decide)

/-- C3: on a retryable (transient) failure the engine re-invokes the same
node with an identical snapshot, bumping its retry count, until the
configured maximum attempts; exhaustion converts the outcome to a fatal
error that marks the run `failed` with reason `capability-fatal:<cap>`,
stops advancing and commits nothing; concretely, three OCR timeouts with
configured max 3 fail the run with `capability-fatal:OCR`, no ReviewTask
and no record, and every further event is a no-op. -/
theorem spec_c3_retry_fatal :
    (∀ {α : Type} (env : Env) (w : World) (n : ENode) (cap : String)
       (oracle : Nat → CapResult α) (mkPatch : α → EPatch) (succ : List ENode)
       (eff : α → World → World),
      oracle (w.run.retryCounts n) = .transient →
        (w.run.retryCounts n + 1 < env.maxAttempts →
          (runCap env w n cap oracle mkPatch succ eff).run.currentState =
            w.run.currentState ∧
          frontierOf (runCap env w n cap oracle mkPatch succ eff).run = [n] ∧
          (runCap env w n cap oracle mkPatch succ eff).run.retryCounts n =
            w.run.retryCounts n + 1 ∧
          (runCap env w n cap oracle mkPatch succ eff).run.status =
            w.run.status ∧
          (runCap env w n cap oracle mkPatch succ eff).records = w.records ∧
          (runCap env w n cap oracle mkPatch succ eff).tasks = w.tasks) ∧
        (¬ w.run.retryCounts n + 1 < env.maxAttempts →
          (runCap env w n cap oracle mkPatch succ eff).run.status = .failed ∧
          (runCap env w n cap oracle mkPatch succ eff).run.failReason =
            some ("capability-fatal:" ++ cap) ∧
          frontierOf (runCap env w n cap oracle mkPatch succ eff).run = [] ∧
          (runCap env w n cap oracle mkPatch succ eff).run.currentState =
            w.run.currentState ∧
          (runCap env w n cap oracle mkPatch succ eff).records = w.records ∧
          (runCap env w n cap oracle mkPatch succ eff).tasks = w.tasks)) ∧
    (∀ (d : String) (i : Nat),
      (runEvents envOcrTimeout [.tick, .tick, .tick] (initWorld d i)).run.status =
        .failed ∧
      (runEvents envOcrTimeout [.tick, .tick, .tick] (initWorld d i)).run.failReason =
        some "capability-fatal:OCR" ∧
      (runEvents envOcrTimeout [.tick, .tick, .tick] (initWorld d i)).tasks = [] ∧
      (runEvents envOcrTimeout [.tick, .tick, .tick] (initWorld d i)).records = [] ∧
      ∀ e, applyEvent envOcrTimeout
          (runEvents envOcrTimeout [.tick, .tick, .tick] (initWorld d i)) e =
        runEvents envOcrTimeout [.tick, .tick, .tick] (initWorld d i)) := by
  constructor
  · intro α env w n cap oracle mkPatch succ eff ho
    constructor
    · intro hk
      unfold runCap
      simp [ho, hk, frontierOf, List.getLast?_concat, applyEPatch_empty]
    · intro hk
      unfold runCap
      simp [ho, hk, frontierOf, List.getLast?_concat, applyEPatch_empty]
  · intro d i
    refine ⟨rfl, rfl, rfl, rfl, fun e => ?_⟩
    cases e <;> rfl

/-- Witness for C3: the first transient OCR attempt of the timeout
environment retries the OCR node, and the three-timeout scenario fails the
run with reason `capability-fatal:OCR`. -/
theorem spec_c3_witness :
    (runCap envOcrTimeout (initWorld "doc" 1) ENode.ocr "OCR" envOcrTimeout.ocr
        (fun o => { ocrText := some o.text, ocrRegions := some o.regions })
        [ENode.ner] (fun _ w' => w')).run.retryCounts ENode.ocr = 1 ∧
    (runEvents envOcrTimeout [.tick, .tick, .tick]
        (initWorld "doc" 1)).run.failReason = some "capability-fatal:OCR" :=
  ⟨(((spec_c3_retry_fatal).1 envOcrTimeout (initWorld "doc" 1) ENode.ocr "OCR"
      envOcrTimeout.ocr
      (fun o => { ocrText := some o.text, ocrRegions := some o.regions })
      [ENode.ner] (fun _ w' => w') rfl).1 (by decide)).2.2.1,
   ((spec_c3_retry_fatal).2 "doc" 1).2.1⟩

/-- C4: the patches of the QA fan-out siblings `sql-query` and
`vector-search` commute under the engine's merge: the merged QueryState is
independent of their relative completion order. -/
theorem spec_c4_fanout_commutes (s : QueryState) (rows : List RecordData)
    (hits : List Hit) :
    mergeFanOut s [sqlQueryPatch rows, vectorSearchPatch hits] =
      mergeFanOut s [vectorSearchPatch hits, sqlQueryPatch rows] := rfl

/-- C5: when both retrieval sources are empty, answer synthesis returns the
explicit "insufficient data" answer with empty citations, by a
deterministic policy check that does not consult the composing language
model. -/
theorem spec_c5_insufficient_data
    (llm llm2 : String → List RecordData → List Hit → String × List String)
    (s : QueryState) (hrows : s.sqlResult.getD [] = [])
    (hhits : s.vectorHits.getD [] = []) :
    synthesizeNode llm s =
      { answer := some insufficientAnswer, citations := some [] } ∧
    (applyQPatch s (synthesizeNode llm s)).answer = some insufficientAnswer ∧
    (applyQPatch s (synthesizeNode llm s)).citations = [] ∧
    synthesizeNode llm s = synthesizeNode llm2 s := by
  have h1 : synthesizeNode llm s =
      { answer := some insufficientAnswer, citations := some [] } := by
    simp [synthesizeNode, hrows, hhits]
  have h2 : synthesizeNode llm2 s =
      { answer := some insufficientAnswer, citations := some [] } := by
    simp [synthesizeNode, hrows, hhits]
  refine ⟨h1, ?_, ?_, by rw [h1, h2]⟩ <;> rw [h1] <;> rfl

/-- Witness for C5: the concrete empty-source query state yields the
insufficient-data answer under two different language models. -/
theorem spec_c5_witness :
    synthesizeNode fabricatingLlm emptyQS =
      { answer := some insufficientAnswer, citations := some [] } ∧
    (applyQPatch emptyQS (synthesizeNode fabricatingLlm emptyQS)).answer =
      some insufficientAnswer ∧
    (applyQPatch emptyQS (synthesizeNode fabricatingLlm emptyQS)).citations = [] ∧
    synthesizeNode fabricatingLlm emptyQS = synthesizeNode echoLlm emptyQS :=
  spec_c5_insufficient_data fabricatingLlm echoLlm emptyQS rfl rfl

/-- C6: every engine event only appends to a GraphRun's history, and the
current state is always the in-order patch-fold of the history over the
initial state. -/
theorem spec_c6_history_fold (env : Env) :
    (∀ (w : World) (e : Event),
      (∃ tl, (applyEvent env w e).run.history = w.run.history ++ tl) ∧
      (∀ s0, w.run.currentState = foldPatches s0 w.run.history →
        (applyEvent env w e).run.currentState =
          foldPatches s0 (applyEvent env w e).run.history)) ∧
    (∀ (d : String) (i : Nat) (evts : List Event),
      (runEvents env evts (initWorld d i)).run.currentState =
        foldPatches (initES d) (runEvents env evts (initWorld d i)).run.history) := by
  constructor
  · intro w e
    obtain ⟨tl, h1, h2⟩ := step_run env w e
    refine ⟨⟨tl, h1⟩, ?_⟩
    intro s0 hs
    rw [h1, h2, hs, foldPatches_append]
  · intro d i evts
    suffices h : ∀ w : World, w.run.currentState = foldPatches (initES d) w.run.history →
        (runEvents env evts w).run.currentState =
          foldPatches (initES d) (runEvents env evts w).run.history by
      exact h (initWorld d i) rfl
    induction evts with
    | nil => intro w hw; exact hw
    | cons e rest ih =>
        intro w hw
        simp only [runEvents, List.foldl_cons]
        obtain ⟨tl, h1, h2⟩ := step_run env w e
        exact ih (applyEvent env w e) (by rw [h1, h2, hw, foldPatches_append])

/-- Witness for C6: a concrete step of a concrete world preserves the
patch-fold characterisation. -/
theorem spec_c6_witness :
    (applyEvent envHappy (initWorld "doc" 7) Event.tick).run.currentState =
      foldPatches (initES "doc")
        (applyEvent envHappy (initWorld "doc" 7) Event.tick).run.history :=
  ((spec_c6_history_fold envHappy).1 (initWorld "doc" 7) Event.tick).2
    (initES "doc") rfl

/-- C7: along any reachable extraction run, `reviewStatus` is monotone in
the order draft < pendingReview < approved/rejected, and once terminal
(`approved` or `rejected`) it never changes again. -/
theorem spec_c7_reviewStatus_monotone (env : Env) (d : String) (i : Nat)
    (evts : List Event) (e : Event) :
    ReviewStatus.rank
        (runEvents env evts (initWorld d i)).run.currentState.reviewStatus ≤
      ReviewStatus.rank
        (applyEvent env (runEvents env evts (initWorld d i)) e).run.currentState.reviewStatus ∧
    ((runEvents env evts (initWorld d i)).run.currentState.reviewStatus.isTerminal =
        true →
      (applyEvent env (runEvents env evts (initWorld d i)) e).run.currentState.reviewStatus =
        (runEvents env evts (initWorld d i)).run.currentState.reviewStatus) := by
  have hInv := inv_reach env d i evts
  have h := rs_step env (runEvents env evts (initWorld d i)) e hInv
  rcases h with h | ⟨hd, h2⟩
  · exact ⟨by rw [h], fun _ => h⟩
  · constructor
    · rw [hd]
      rcases h2 with h2 | h2 <;> rw [h2] <;> simp [ReviewStatus.rank]
    · intro hterm
      rw [hd] at hterm
      simp [ReviewStatus.isTerminal] at hterm
/-- Witness for C7: after the concrete approved run, a further engine step
leaves the terminal `approved` status unchanged. -/
theorem spec_c7_witness :
    (applyEvent envHappy (runEvents envHappy happyTrace (initWorld "doc" 7))
        Event.tick).run.currentState.reviewStatus =
      (runEvents envHappy happyTrace (initWorld "doc" 7)).run.currentState.reviewStatus :=
  (spec_c7_reviewStatus_monotone envHappy "doc" 7 happyTrace Event.tick).2
    (by decide)

/-- C8: the Orchestrator picks the extraction graph exactly when a document
is attached and the QA graph exactly when only a question is present, and
instantiates one fresh GraphRun (status `running`, empty history, the
request data as initial state) with no other business logic. -/
theorem spec_c8_orchestrator_dispatch (req : Request) (i : Nat) :
    ((∃ r, orchestrate req i = some (.ext r)) ↔ req.document.isSome = true) ∧
    ((∃ r, orchestrate req i = some (.qa r)) ↔
      req.document = none ∧ req.question.isSome = true) ∧
    (∀ d, req.document = some d →
      orchestrate req i = some (.ext (freshExRun i d.docRef)) ∧
      (freshExRun i d.docRef).graphKind = .extraction ∧
      (freshExRun i d.docRef).status = .running ∧
      (freshExRun i d.docRef).history = [] ∧
      (freshExRun i d.docRef).id = i ∧
      (freshExRun i d.docRef).currentState = initES d.docRef) ∧
    (∀ q, req.document = none → req.question = some q →
      orchestrate req i = some (.qa (freshQaRun i q)) ∧
      (freshQaRun i q).graphKind = .qa ∧
      (freshQaRun i q).status = .running ∧
      (freshQaRun i q).history = [] ∧
      (freshQaRun i q).id = i ∧
      (freshQaRun i q).currentState = initQS q) ∧
    (req.document = none → req.question = none → orchestrate req i = none) := by
  obtain ⟨doc, q⟩ := req
  cases doc <;> cases q <;>
    simp [orchestrate, freshExRun, freshQaRun, initES, initQS]

/-- Witness for C8: a concrete document request yields an extraction run;
a concrete question-only request yields a QA run. -/
theorem spec_c8_witness :
    orchestrate { document := some { docRef := "img1", mediaType := "image/png" },
                  question := none } 3 =
      some (.ext (freshExRun 3 "img1")) ∧
    orchestrate { document := none, question := some "上周浇筑了多少混凝土？" } 4 =
      some (.qa (freshQaRun 4 "上周浇筑了多少混凝土？")) :=
  ⟨((spec_c8_orchestrator_dispatch
      { document := some { docRef := "img1", mediaType := "image/png" },
        question := none } 3).2.2.1 _ rfl).1,
   ((spec_c8_orchestrator_dispatch
      { document := none, question := some "上周浇筑了多少混凝土？" } 4).2.2.2.1 _
      rfl rfl).1⟩

/-- C9: an empty or all-whitespace query issues no request and leaves the
state (in particular the displayed query result) unchanged; a non-blank
query is sent verbatim as the `question` field. -/
theorem spec_c9_empty_query_guard (st : AppState)
    (respond : QueryReq → AxiosResult QueryResp) :
    (jsTrim st.queryText = "" →
      executeQuery st respond = (st, none) ∧
      (executeQuery st respond).1.queryResult = st.queryResult) ∧
    (jsTrim st.queryText ≠ "" →
      (executeQuery st respond).2 = some { question := st.queryText }) := by
  constructor
  · intro h
    simp [executeQuery, h]
  · intro h
    simp [executeQuery, h]

/-- Witness for C9: a whitespace-only query (ideographic space U+3000,
NBSP U+00A0 and an ASCII space) is dropped without touching the state; a
query that is non-blank after trimming — here one starting with a
full-width space — is posted verbatim, untrimmed. -/
theorem spec_c9_witness :
    executeQuery { sampleApp with queryText := "\u3000\u00A0 " }
        (fun _ => AxiosResult.err) =
      ({ sampleApp with queryText := "\u3000\u00A0 " }, none) ∧
    (executeQuery { sampleApp with queryText := "　上周浇筑了多少混凝土？" }
        (fun _ => AxiosResult.err)).2 =
      some { question := "　上周浇筑了多少混凝土？" } :=
  ⟨((spec_c9_empty_query_guard { sampleApp with queryText := "\u3000\u00A0 " }
      (fun _ => AxiosResult.err)).1 (by decide)).1,
   (spec_c9_empty_query_guard { sampleApp with queryText := "　上周浇筑了多少混凝土？" }
      (fun _ => AxiosResult.err)).2 (by decide)⟩

/-- C10: submitting the record form resets the form to its defaults,
clears the attached file and refetches records and statistics exactly when
the server replies with `success: true`; a thrown request error or a
`success: false` reply leaves the state untouched. -/
theorem spec_c10_submit_reset_on_success (st : AppState) (today : String)
    (respond : SubmitReq → AxiosResult SubmitResp)
    (recResp : AxiosResult RecordsResp) (statResp : AxiosResult StatsResp) :
    (respond { record := st.recordForm, file := st.uploadFile } =
        .ok { success := true } →
      (submitRecord st today respond recResp statResp).1 =
        fetchStats (fetchRecords
          { st with recordForm := defaultForm today, uploadFile := none }
          recResp) statResp ∧
      (submitRecord st today respond recResp statResp).1.recordForm =
        defaultForm today ∧
      (submitRecord st today respond recResp statResp).1.uploadFile = none) ∧
    (respond { record := st.recordForm, file := st.uploadFile } = .err →
      submitRecord st today respond recResp statResp =
        (st, some { record := st.recordForm, file := st.uploadFile })) ∧
    (∀ r, respond { record := st.recordForm, file := st.uploadFile } = .ok r →
      r.success = false →
      submitRecord st today respond recResp statResp =
        (st, some { record := st.recordForm, file := st.uploadFile })) := by
  refine ⟨?_, ?_, ?_⟩
  · intro h
    have hform : ∀ (x : AppState) rr sr,
        (fetchStats (fetchRecords x rr) sr).recordForm = x.recordForm := by
      intro x rr sr
      cases rr <;> cases sr <;>
        simp [fetchRecords, fetchStats] <;> split <;> try split
      all_goals rfl
    have hfile : ∀ (x : AppState) rr sr,
        (fetchStats (fetchRecords x rr) sr).uploadFile = x.uploadFile := by
      intro x rr sr
      cases rr <;> cases sr <;>
        simp [fetchRecords, fetchStats] <;> split <;> try split
      all_goals rfl
    refine ⟨?_, ?_, ?_⟩ <;> simp [submitRecord, h, hform, hfile]
  · intro h
    simp [submitRecord, h]
  · intro r h hsucc
    simp [submitRecord, h, hsucc]

/-- Witness for C10: a successful submit of a concrete state resets the
form and refetches; a failed submit leaves the state unchanged. -/
theorem spec_c10_witness :
    (submitRecord sampleApp "2026-10-13" (fun _ => AxiosResult.ok { success := true })
        AxiosResult.err AxiosResult.err).1.recordForm = defaultForm "2026-10-13" ∧
    submitRecord sampleApp "2026-10-13" (fun _ => AxiosResult.err)
        AxiosResult.err AxiosResult.err =
      (sampleApp, some { record := sampleApp.recordForm,
                         file := sampleApp.uploadFile }) :=
  ⟨((spec_c10_submit_reset_on_success sampleApp "2026-10-13"
      (fun _ => AxiosResult.ok { success := true })
      AxiosResult.err AxiosResult.err).1 rfl).2.1,
   (spec_c10_submit_reset_on_success sampleApp "2026-10-13"
      (fun _ => AxiosResult.err) AxiosResult.err AxiosResult.err).2.1 rfl⟩

end ConstructionMvp
